import Mathlib

/-!
Verification of the retrieval-augmented indexing and search subsystem of the
book-catalog service. Definitions are shallow embeddings of the Python source
(`src/app/main.py`, `src/app/models.py`, `src/app/routes/ingestion.py`); the
embedding store, ranker and single-book indexer live in
`app/rag_pipeline_minimal.py`, which is not part of the source tree here, so
those components are modelled from the specification (each such definition is
marked `Modelled from the spec:`).
-/

namespace BookMgmt

/-- A book row, from `src/app/models.py` (`class Book`): integer primary key
and string columns `title`, `author`, `genre`, plus `year_published` and
`summary` (unused by the search core). -/
structure Book where
  id : Nat
  title : String
  author : String
  genre : String
  yearPublished : Int
  summary : String
deriving Repr, DecidableEq

/-- A review row, from `src/app/models.py` (`class Review`). -/
structure Review where
  id : Nat
  bookId : Nat
  userId : Nat
  reviewText : String
  rating : ℚ
deriving Repr, DecidableEq

/-- Modelled from the spec: one entry of the Embedding Store
(`rag_pipeline_minimal.py` is not under `src/`): `book_id`, the embedding
`vector`, the `source_text` that produced it, and denormalized metadata
(title, author, genre) copied at index time. Vector components are modelled
as rationals. -/
structure IndexEntry where
  bookId : Nat
  vector : List ℚ
  sourceText : String
  title : String
  author : String
  genre : String
deriving Repr, DecidableEq

/-- Modelled from the spec: the Embedding Store is a process-wide table keyed
by `book_id` (a Python dict in `rag_pipeline_minimal.py`); modelled as an
association list of entries, insertion-ordered like a dict. -/
abbrev Store := List IndexEntry

/-- The keys of the store, mirroring `embeddings_store.keys()` used by
`debug_embeddings` in `src/app/main.py`. -/
def storeKeys (s : Store) : List Nat := s.map (·.bookId)

/-- The size of the store, mirroring `len(rag_pipeline.embeddings_store)`
in `src/app/main.py`. -/
def store_size (s : Store) : Nat := s.length

/-- Modelled from the spec: `put` is an unconditional upsert — overwrite in
place when the key exists (Python dict assignment keeps the key's position),
append otherwise. -/
def putEntry : Store → IndexEntry → Store
  | [], e => [e]
  | x :: xs, e => if x.bookId = e.bookId then e :: xs else x :: putEntry xs e

/-- Modelled from the spec: `delete(book_id)` removes the entry for that key
(Python dict `del` / `pop`). -/
def deleteEntry (s : Store) (bid : Nat) : Store :=
  s.filter (fun e => e.bookId ≠ bid)

/-- The ranking order on `(book_id, score)` pairs: descending similarity
score, ties broken by ascending `book_id`. -/
def rankRel (a b : Nat × ℚ) : Prop :=
  b.2 < a.2 ∨ (a.2 = b.2 ∧ a.1 ≤ b.1)

instance : DecidableRel rankRel := fun a b => by
  unfold rankRel; infer_instance

instance : IsTotal (Nat × ℚ) rankRel := ⟨by
  intro a b
  rcases lt_trichotomy a.2 b.2 with h | h | h
  · exact Or.inr (Or.inl h)
  · rcases Nat.le_total a.1 b.1 with h1 | h1
    · exact Or.inl (Or.inr ⟨h, h1⟩)
    · exact Or.inr (Or.inr ⟨h.symm, h1⟩)
  · exact Or.inl (Or.inl h)⟩

instance : IsTrans (Nat × ℚ) rankRel := ⟨by
  intro a b c hab hbc
  rcases hab with h1 | ⟨he1, hi1⟩ <;> rcases hbc with h2 | ⟨he2, hi2⟩
  · exact Or.inl (h2.trans h1)
  · exact Or.inl (he2 ▸ h1)
  · exact Or.inl (he1 ▸ h2)
  · exact Or.inr ⟨he1.trans he2, hi1.trans hi2⟩⟩

/-- Modelled from the spec: the Similarity Ranker
(`rag_pipeline_minimal.py` is not under `src/`): score every stored entry
against the query vector, sort by descending score with ties on ascending
`book_id`, and keep at most `limit` entries. The spec fixes the score to
cosine similarity, whose real-valued norm has no exact rational form, so the
scoring function `sim` is a parameter: every property proved below holds for
any scoring function. -/
def rank (sim : List ℚ → List ℚ → ℚ) (store : Store) (qv : List ℚ)
    (limit : Nat) : List (Nat × ℚ) :=
  (List.insertionSort rankRel
    (store.map (fun e => (e.bookId, sim qv e.vector)))).take limit

/-- A dot-product scoring function, used to instantiate `rank` in witnesses. -/
def dotSim (a b : List ℚ) : ℚ := (List.zipWith (fun x y => x * y) a b).sum

/-- A small concrete store used by witnesses. -/
def demoStore : Store :=
  [⟨1, [1, 0], "Dune Herbert SciFi", "Dune", "Herbert", "SciFi"⟩,
   ⟨2, [0, 1], "Emma Austen Classic", "Emma", "Austen", "Classic"⟩]

/-- C5: for every query vector and positive limit, `rank` returns at most
`limit` entries, every returned `book_id` is a key of the store, the output
is sorted by descending similarity with ties broken by ascending `book_id`,
and on an empty store `rank` returns the empty sequence rather than an
error. -/
theorem rank_contract (sim : List ℚ → List ℚ → ℚ) (store : Store)
    (qv : List ℚ) (limit : Nat) (_hpos : 0 < limit) :
    (rank sim store qv limit).length ≤ limit ∧
    (∀ p ∈ rank sim store qv limit, p.1 ∈ storeKeys store) ∧
    List.Sorted rankRel (rank sim store qv limit) ∧
    (store = [] → rank sim store qv limit = []) := by
  refine ⟨?_, ?_, ?_, ?_⟩
  · simp [rank]
  · intro p hp
    have hmem : p ∈ List.insertionSort rankRel
        (store.map (fun e => (e.bookId, sim qv e.vector))) :=
      List.mem_of_mem_take hp
    rw [List.mem_insertionSort] at hmem
    obtain ⟨e, he, rfl⟩ := List.mem_map.mp hmem
    exact List.mem_map.mpr ⟨e, he, rfl⟩
  · exact List.Pairwise.sublist (List.take_sublist _ _)
      (List.sorted_insertionSort rankRel _)
  · rintro rfl
    simp [rank]

/-- Witness for C5 at a concrete store, query vector and limit. -/
theorem rank_contract_witness :
    (rank dotSim demoStore [1, 0] 1).length ≤ 1 ∧
    (∀ p ∈ rank dotSim demoStore [1, 0] 1, p.1 ∈ storeKeys demoStore) ∧
    List.Sorted rankRel (rank dotSim demoStore [1, 0] 1) ∧
    (demoStore = [] → rank dotSim demoStore [1, 0] 1 = []) :=
  rank_contract dotSim demoStore [1, 0] 1 (by decide)

/-! ### Search facade (`search_books` in `src/app/main.py`, lines 193-232) -/

/-- Lower-case a string character by character (models Python/SQL
case-insensitive comparison in `ilike`). -/
def strLower (s : String) : String := String.mk (s.toList.map Char.toLower)

/-- Containment of `needle` in `hay` as character lists. -/
def charsContain (needle : List Char) : List Char → Bool
  | [] => needle.isEmpty
  | c :: t => needle.isPrefixOf (c :: t) || charsContain needle t

/-- Case-insensitive substring test: models SQLAlchemy
`column.ilike` with the query wrapped in percent wildcards, as used by the
fallback branch of `search_books`. -/
def containsCI (hay needle : String) : Bool :=
  charsContain (strLower needle).toList (strLower hay).toList

/-- The fallback match predicate of `search_books`: the query is a
case-insensitive substring of the title, the author or the genre. -/
def matchesQuery (b : Book) (q : String) : Bool :=
  containsCI b.title q || containsCI b.author q || containsCI b.genre q

/-- A search result as constructed in `src/app/main.py`: `book_id`,
`similarity_score`, the metadata dict (book_id, title, author, genre) and a
human-readable `content` string. -/
structure SearchResult where
  bookId : Nat
  similarityScore : ℚ
  metaBookId : Nat
  metaTitle : String
  metaAuthor : String
  metaGenre : String
  content : String
deriving Repr, DecidableEq

/-- One fallback hit, as built by the list comprehension in `search_books`:
`similarity_score` is the fixed sentinel `1.0`. -/
def mkFallbackResult (b : Book) : SearchResult :=
  { bookId := b.id, similarityScore := 1,
    metaBookId := b.id, metaTitle := b.title, metaAuthor := b.author,
    metaGenre := b.genre,
    content := "Title: " ++ b.title ++ " Author: " ++ b.author
      ++ " Genre: " ++ b.genre }

/-- The fallback database query of `search_books`: filter books on
`matchesQuery`, cap at `limit`, wrap each hit as a `SearchResult`. -/
def fallbackSearch (books : List Book) (query : String) (limit : Nat) :
    List SearchResult :=
  ((books.filter (fun b => matchesQuery b query)).take limit).map
    mkFallbackResult

/-- Modelled from the spec: `search_similar_books` of
`rag_pipeline_minimal.py` (not under `src/`). Per the spec: (1) embed the
query; if embedding fails, do not surface the failure — yield nothing so the
caller falls back; (2) rank via the Similarity Ranker; (3) join each
`(book_id, score)` against the stored metadata. -/
def search_similar_books (embed : String → Option (List ℚ))
    (sim : List ℚ → List ℚ → ℚ) (store : Store) (query : String)
    (limit : Nat) : List SearchResult :=
  match embed query with
  | none => []
  | some qv =>
    (rank sim store qv limit).filterMap (fun p =>
      (store.find? (fun e => e.bookId = p.1)).map (fun e =>
        { bookId := p.1, similarityScore := p.2,
          metaBookId := e.bookId, metaTitle := e.title,
          metaAuthor := e.author, metaGenre := e.genre,
          content := e.sourceText }))

/-- The search endpoint's only failure: the blanket `except` in
`search_books` converts any database error into HTTP 500 "Search failed". -/
inductive SearchErr
  | searchFailed
deriving Repr, DecidableEq

/-- `search_books` from `src/app/main.py`: try the RAG search first; if it
yields nothing, run the fallback database query (the database read is
modelled as `Except Unit (List Book)`; its error case models the query
raising, which the blanket `except` turns into HTTP 500). -/
def search_books (rag : String → Nat → List SearchResult)
    (dbBooks : Except Unit (List Book)) (query : String) (limit : Nat) :
    Except SearchErr (List SearchResult) :=
  let results := rag query limit
  if results.isEmpty then
    match dbBooks with
    | .error _ => .error .searchFailed
    | .ok books => .ok (fallbackSearch books query limit)
  else
    .ok results

/-- On an empty store the modelled pipeline yields nothing, whatever the
query, the embedding and the limit. -/
theorem search_similar_books_empty_store (embed : String → Option (List ℚ))
    (sim : List ℚ → List ℚ → ℚ) (query : String) (limit : Nat) :
    search_similar_books embed sim [] query limit = [] := by
  unfold search_similar_books
  cases embed query with
  | none => rfl
  | some qv => simp [rank]

/-- C3: with an empty embedding store, `search` returns exactly the
fallback results: each has `similarity_score = 1`, each comes from a book of
the record store matching the query case-insensitively on title, author or
genre, at most `limit` of them; and when no book matches, the result is the
empty sequence, not an error. -/
theorem search_empty_store_fallback (embed : String → Option (List ℚ))
    (sim : List ℚ → List ℚ → ℚ) (books : List Book) (query : String)
    (limit : Nat) :
    search_books (search_similar_books embed sim []) (.ok books) query
        limit = .ok (fallbackSearch books query limit) ∧
    (∀ r ∈ fallbackSearch books query limit, r.similarityScore = 1) ∧
    (∀ r ∈ fallbackSearch books query limit,
      ∃ b ∈ books, matchesQuery b query = true ∧ r = mkFallbackResult b) ∧
    (fallbackSearch books query limit).length ≤ limit ∧
    (books.filter (fun b => matchesQuery b query) = [] →
      search_books (search_similar_books embed sim []) (.ok books) query
        limit = .ok []) := by
  have hrag : search_books (search_similar_books embed sim []) (.ok books)
      query limit = .ok (fallbackSearch books query limit) := by
    simp [search_books, search_similar_books_empty_store]
  refine ⟨hrag, ?_, ?_, ?_, ?_⟩
  · intro r hr
    obtain ⟨b, _, rfl⟩ := List.mem_map.mp hr
    rfl
  · intro r hr
    obtain ⟨b, hb, rfl⟩ := List.mem_map.mp hr
    have hb1 : b ∈ books.filter (fun b => matchesQuery b query) :=
      List.mem_of_mem_take hb
    exact ⟨b, (List.mem_filter.mp hb1).1, (List.mem_filter.mp hb1).2, rfl⟩
  · simp [fallbackSearch]
  · intro hnone
    rw [hrag, fallbackSearch, hnone]
    simp

/-- Witness for C3 at a concrete record store and query. -/
theorem search_empty_store_fallback_witness :
    search_books (search_similar_books (fun _ => some [1]) dotSim [])
        (.ok [⟨1, "Dune", "Herbert", "SciFi", 1965, ""⟩]) "dune" 5 =
      .ok (fallbackSearch [⟨1, "Dune", "Herbert", "SciFi", 1965, ""⟩]
        "dune" 5) ∧
    (∀ r ∈ fallbackSearch [⟨1, "Dune", "Herbert", "SciFi", 1965, ""⟩]
        "dune" 5, r.similarityScore = 1) ∧
    (∀ r ∈ fallbackSearch [⟨1, "Dune", "Herbert", "SciFi", 1965, ""⟩]
        "dune" 5,
      ∃ b ∈ [(⟨1, "Dune", "Herbert", "SciFi", 1965, ""⟩ : Book)],
        matchesQuery b "dune" = true ∧ r = mkFallbackResult b) ∧
    (fallbackSearch [⟨1, "Dune", "Herbert", "SciFi", 1965, ""⟩]
        "dune" 5).length ≤ 5 ∧
    ([(⟨1, "Dune", "Herbert", "SciFi", 1965, ""⟩ : Book)].filter
        (fun b => matchesQuery b "dune") = [] →
      search_books (search_similar_books (fun _ => some [1]) dotSim [])
        (.ok [⟨1, "Dune", "Herbert", "SciFi", 1965, ""⟩]) "dune" 5 =
        .ok []) :=
  search_empty_store_fallback (fun _ => some [1]) dotSim
    [⟨1, "Dune", "Herbert", "SciFi", 1965, ""⟩] "dune" 5

/-- C4: an embedding failure is never surfaced as a search failure — the
facade falls through to the fallback query; search fails hard only when the
fallback read of the record store itself fails. -/
theorem search_embed_failure_degrades (embed : String → Option (List ℚ))
    (sim : List ℚ → List ℚ → ℚ) (store : Store) (books : List Book)
    (query : String) (limit : Nat) (hfail : embed query = none) :
    search_books (search_similar_books embed sim store) (.ok books) query
        limit = .ok (fallbackSearch books query limit) ∧
    search_books (search_similar_books embed sim store) (.error ()) query
        limit = .error .searchFailed := by
  have hempty : search_similar_books embed sim store query limit = [] := by
    unfold search_similar_books
    rw [hfail]
  constructor
  · simp [search_books, hempty]
  · simp [search_books, hempty]

/-- Witness for C4 at a concrete failing embedder and nonempty store. -/
theorem search_embed_failure_degrades_witness :
    search_books (search_similar_books (fun _ => none) dotSim demoStore)
        (.ok [⟨1, "Dune", "Herbert", "SciFi", 1965, ""⟩]) "dune" 5 =
      .ok (fallbackSearch [⟨1, "Dune", "Herbert", "SciFi", 1965, ""⟩]
        "dune" 5) ∧
    search_books (search_similar_books (fun _ => none) dotSim demoStore)
        (.error ()) "dune" 5 = .error .searchFailed :=
  search_embed_failure_degrades (fun _ => none) dotSim demoStore
    [⟨1, "Dune", "Herbert", "SciFi", 1965, ""⟩] "dune" 5 rfl

/-- C8 counterexample: `search_books` performs no input validation — the
empty query is processed (and matches every book through the fallback) and
a zero limit is processed (yielding zero fallback rows); neither is
rejected as an input error. -/
theorem search_accepts_invalid_inputs :
    search_books
        (search_similar_books (fun _ => some [1]) dotSim []) (.ok
        [⟨1, "Dune", "Herbert", "SciFi", 1965, ""⟩]) "" 5 =
      .ok [mkFallbackResult ⟨1, "Dune", "Herbert", "SciFi", 1965, ""⟩] ∧
    search_books
        (search_similar_books (fun _ => some [1]) dotSim []) (.ok
        [⟨1, "Dune", "Herbert", "SciFi", 1965, ""⟩]) "Dune" 0 =
      .ok [] := by
  constructor <;> rfl

/-- C8 amended: `search_books` rejects nothing — for every query (the empty
string included) and every limit (zero included), a successful record-store
read always produces a result list, never an error; and the empty query
matches every book in the fallback. -/
theorem search_no_input_validation (rag : String → Nat → List SearchResult)
    (books : List Book) (query : String) (limit : Nat) :
    (∃ rs, search_books rag (.ok books) query limit = .ok rs) ∧
    (∀ b : Book, matchesQuery b "" = true) := by
  constructor
  · by_cases h : (rag query limit).isEmpty
    · exact ⟨fallbackSearch books query limit, by simp [search_books, h]⟩
    · exact ⟨rag query limit, by simp [search_books, h]⟩
  · intro b
    have hc : ∀ hay : String, containsCI hay "" = true := by
      intro hay
      unfold containsCI
      cases hlist : (strLower hay).toList with
      | nil => rfl
      | cons c t => simp [charsContain, strLower, List.isPrefixOf]
    simp [matchesQuery, hc]

/-! ### Indexing orchestrator -/

/-- The record-store read interface the core uses (spec section 6):
`get_book(book_id)` and `get_reviews(book_id)`. -/
structure RecordStore where
  getBook : Nat → Option Book
  getReviews : Nat → List Review

/-- Modelled from the spec: the composed `source_text` — title, author and
genre joined with the review texts (an empty review list is valid and just
yields a shorter text). -/
def composeText (b : Book) (reviews : List Review) : String :=
  String.intercalate " "
    ([b.title, b.author, b.genre] ++ reviews.map (·.reviewText))

/-- The failure taxonomy of single-book indexing (spec section 7). -/
inductive IndexErr
  | recordNotFound
  | embeddingUnavailable
deriving Repr, DecidableEq

/-- The index entry written for book `bid` with record `b`, source text
`src` and embedding vector `v`. -/
def mkIndexEntry (bid : Nat) (b : Book) (src : String) (v : List ℚ) :
    IndexEntry :=
  { bookId := bid, vector := v, sourceText := src,
    title := b.title, author := b.author, genre := b.genre }

/-- Modelled from the spec: `index_book` of `rag_pipeline_minimal.py` (not
under `src/`). Fetch the book and its reviews; fail fast with
`RecordNotFound` if absent; compose the source text; call the embedding
generator, returning `EmbeddingUnavailable` without touching the store on
failure; on success upsert into the store. The embedding generator is a
parameter returning `none` exactly when it signals `EmbeddingUnavailable`. -/
def index_book (rs : RecordStore) (embed : String → Option (List ℚ))
    (store : Store) (bid : Nat) : Except IndexErr Store :=
  match rs.getBook bid with
  | none => .error .recordNotFound
  | some b =>
    match embed (composeText b (rs.getReviews bid)) with
    | none => .error .embeddingUnavailable
    | some v =>
      .ok (putEntry store
        (mkIndexEntry bid b (composeText b (rs.getReviews bid)) v))

/-- The entry `index_book` would write for `bid`, or `none` when indexing
`bid` must fail; success of `index_book` does not depend on the store. -/
def indexOutcome (rs : RecordStore) (embed : String → Option (List ℚ))
    (bid : Nat) : Option IndexEntry :=
  match rs.getBook bid with
  | none => none
  | some b =>
    match embed (composeText b (rs.getReviews bid)) with
    | none => none
    | some v => some (mkIndexEntry bid b (composeText b (rs.getReviews bid)) v)

/-- Whether indexing `bid` succeeds (a function of the record store and the
embedder only, never of the embedding store). -/
def indexOk (rs : RecordStore) (embed : String → Option (List ℚ))
    (bid : Nat) : Bool :=
  (indexOutcome rs embed bid).isSome

/-- `index_book` either writes exactly the `indexOutcome` entry or fails
leaving no store behind. -/
theorem index_book_cases (rs : RecordStore)
    (embed : String → Option (List ℚ)) (store : Store) (bid : Nat) :
    (∃ e, indexOutcome rs embed bid = some e ∧
      index_book rs embed store bid = .ok (putEntry store e)) ∨
    (indexOutcome rs embed bid = none ∧
      ∃ err, index_book rs embed store bid = .error err) := by
  cases hb : rs.getBook bid with
  | none =>
    refine Or.inr ⟨?_, IndexErr.recordNotFound, ?_⟩ <;>
      simp [indexOutcome, index_book, hb]
  | some b =>
    cases he : embed (composeText b (rs.getReviews bid)) with
    | none =>
      refine Or.inr ⟨?_, IndexErr.embeddingUnavailable, ?_⟩ <;>
        simp [indexOutcome, index_book, hb, he]
    | some v =>
      refine Or.inl
        ⟨mkIndexEntry bid b (composeText b (rs.getReviews bid)) v,
          ?_, ?_⟩ <;>
        simp [indexOutcome, index_book, hb, he]

/-- A book whose `indexOutcome` is `none` makes `index_book` fail whatever
the store. -/
theorem index_book_error_of_not_ok (rs : RecordStore)
    (embed : String → Option (List ℚ)) (store : Store) (bid : Nat)
    (h : indexOk rs embed bid = false) :
    ∃ err, index_book rs embed store bid = .error err := by
  rcases index_book_cases rs embed store bid with ⟨e, he, _⟩ | ⟨_, err, herr⟩
  · unfold indexOk at h
    rw [he] at h
    simp at h
  · exact ⟨err, herr⟩

/-- A book whose `indexOutcome` is an entry makes `index_book` succeed by
upserting that entry, whatever the store. -/
theorem index_book_ok_of_ok (rs : RecordStore)
    (embed : String → Option (List ℚ)) (store : Store) (bid : Nat)
    (h : indexOk rs embed bid = true) :
    ∃ e, indexOutcome rs embed bid = some e ∧
      index_book rs embed store bid = .ok (putEntry store e) := by
  rcases index_book_cases rs embed store bid with ⟨e, he, hok⟩ | ⟨hn, _, _⟩
  · exact ⟨e, he, hok⟩
  · unfold indexOk at h
    rw [hn] at h
    simp at h

/-- C7: `index_book` fails fast with `RecordNotFound` when the book is
absent from the record store; when the embedding generator signals
unavailability it returns `EmbeddingUnavailable` and produces no store
write (the input store is left exactly as it was — only the `ok` branch
carries a store, and it is written only on success). -/
theorem index_book_contract (rs : RecordStore)
    (embed : String → Option (List ℚ)) (store : Store) (bid : Nat) :
    (rs.getBook bid = none →
      index_book rs embed store bid = .error .recordNotFound) ∧
    (∀ b, rs.getBook bid = some b →
      embed (composeText b (rs.getReviews bid)) = none →
      index_book rs embed store bid = .error .embeddingUnavailable) ∧
    (∀ b v, rs.getBook bid = some b →
      embed (composeText b (rs.getReviews bid)) = some v →
      index_book rs embed store bid =
        .ok (putEntry store
          (mkIndexEntry bid b (composeText b (rs.getReviews bid)) v))) := by
  refine ⟨?_, ?_, ?_⟩
  · intro hb
    simp [index_book, hb]
  · intro b hb he
    simp [index_book, hb, he]
  · intro b v hb he
    simp [index_book, hb, he]

/-- A one-book record store used by witnesses. -/
def demoBook1 : Book := ⟨1, "Dune", "Herbert", "SciFi", 1965, ""⟩

/-- A record store holding only `demoBook1`, with no reviews. -/
def demoRS : RecordStore :=
  { getBook := fun bid => if bid = 1 then some demoBook1 else none,
    getReviews := fun _ => [] }

/-- Witness for C7: missing book, failing embedder and succeeding embedder
at concrete inputs. -/
theorem index_book_contract_witness :
    index_book demoRS (fun _ => some [1]) [] 2 = .error .recordNotFound ∧
    index_book demoRS (fun _ => none) [] 1 = .error .embeddingUnavailable ∧
    index_book demoRS (fun _ => some [1]) [] 1 =
      .ok (putEntry []
        (mkIndexEntry 1 demoBook1 (composeText demoBook1 []) [1])) :=
  ⟨(index_book_contract demoRS (fun _ => some [1]) [] 2).1 rfl,
   (index_book_contract demoRS (fun _ => none) [] 1).2.1 demoBook1 rfl rfl,
   (index_book_contract demoRS (fun _ => some [1]) [] 1).2.2 demoBook1 [1]
     rfl rfl⟩

/-! ### Bulk reindexing (`reindex_all_books` in `src/app/main.py`, lines
235-260) -/

/-- The loop of `reindex_all_books`: try each listed book in turn, count
successes, and swallow each per-book failure (the inner blanket `except`
only logs a warning). -/
def reindexLoop (rs : RecordStore) (embed : String → Option (List ℚ)) :
    List Book → Store → Nat → Store × Nat
  | [], store, cnt => (store, cnt)
  | b :: bs, store, cnt =>
    match index_book rs embed store b.id with
    | .ok s1 => reindexLoop rs embed bs s1 (cnt + 1)
    | .error _ => reindexLoop rs embed bs store cnt

/-- The JSON report returned by `reindex_all_books`: its exact fields are
`message`, `total_books`, `indexed_count` and `total_in_store`. -/
structure ReindexReport where
  message : String
  total_books : Nat
  indexed_count : Nat
  total_in_store : Nat
deriving Repr, DecidableEq

/-- The endpoint's only failure: the outer blanket `except` converts a
record-store listing error into HTTP 500 "Reindexing failed". -/
inductive ReindexErr
  | reindexFailed
deriving Repr, DecidableEq

/-- `reindex_all_books` from `src/app/main.py`: list every book (the
listing is modelled as `Except Unit (List Book)`, its error case the query
raising), run the counting loop over all of them, and return the report
plus the final store. -/
def reindex_all_books (rs : RecordStore)
    (embed : String → Option (List ℚ)) (listing : Except Unit (List Book))
    (store : Store) : Except ReindexErr (ReindexReport × Store) :=
  match listing with
  | .error _ => .error .reindexFailed
  | .ok books =>
    let p := reindexLoop rs embed books store 0
    .ok ({ message := "Reindexed " ++ toString p.2 ++ " books successfully",
           total_books := books.length,
           indexed_count := p.2,
           total_in_store := store_size p.1 }, p.1)

/-- The success count of the reindex loop is the starting count plus the
number of listed books whose indexing succeeds. -/
theorem reindexLoop_count (rs : RecordStore)
    (embed : String → Option (List ℚ)) (books : List Book) :
    ∀ store cnt, (reindexLoop rs embed books store cnt).2 =
      cnt + books.countP (fun b => indexOk rs embed b.id) := by
  induction books with
  | nil =>
    intro store cnt
    simp [reindexLoop]
  | cons b bs ih =>
    intro store cnt
    rw [List.countP_cons]
    cases hok : indexOk rs embed b.id with
    | true =>
      obtain ⟨e, _, hbook⟩ := index_book_ok_of_ok rs embed store b.id hok
      rw [reindexLoop, hbook, ih]
      simp [hok]
      omega
    | false =>
      obtain ⟨err, hbook⟩ := index_book_error_of_not_ok rs embed store b.id
        hok
      rw [reindexLoop, hbook, ih]
      simp [hok]

/-- Dropping one failing book from the listing changes nothing: the loop
produces the same store and the same count. -/
theorem reindexLoop_skip (rs : RecordStore)
    (embed : String → Option (List ℚ)) (bad : Book) (post : List Book)
    (hbad : indexOk rs embed bad.id = false) :
    ∀ (pre : List Book) (store : Store) (cnt : Nat),
      reindexLoop rs embed (pre ++ bad :: post) store cnt =
        reindexLoop rs embed (pre ++ post) store cnt := by
  intro pre
  induction pre with
  | nil =>
    intro store cnt
    obtain ⟨err, hbook⟩ := index_book_error_of_not_ok rs embed store bad.id
      hbad
    simp only [List.nil_append]
    rw [reindexLoop, hbook]
  | cons b bs ih =>
    intro store cnt
    simp only [List.cons_append]
    rw [reindexLoop, reindexLoop]
    cases hb : index_book rs embed store b.id with
    | ok s1 => exact ih s1 (cnt + 1)
    | error e => exact ih store cnt

/-- C2: bulk reindexing escalates a hard error exactly when the
record-store listing fails; with a successful listing it always returns a
report (per-book failures never escalate), and a failing book is simply
skipped — the loop result over `pre ++ bad :: post` equals the loop result
over `pre ++ post`, so every remaining book is still processed. -/
theorem reindex_partial_failure_tolerant (rs : RecordStore)
    (embed : String → Option (List ℚ)) (books : List Book)
    (store : Store) :
    reindex_all_books rs embed (.error ()) store =
      .error .reindexFailed ∧
    (∃ rep s1, reindex_all_books rs embed (.ok books) store =
      .ok (rep, s1)) ∧
    (∀ (pre post : List Book) (bad : Book) (s : Store) (n : Nat),
      indexOk rs embed bad.id = false →
      reindexLoop rs embed (pre ++ bad :: post) s n =
        reindexLoop rs embed (pre ++ post) s n) := by
  refine ⟨rfl, ⟨_, _, rfl⟩, ?_⟩
  intro pre post bad s n hbad
  exact reindexLoop_skip rs embed bad post hbad pre s n

/-- Witness for C2: a two-book catalog where the second book's embedding
fails; the listing-failure case, the report case and the skip equation are
all instantiated. -/
theorem reindex_partial_failure_tolerant_witness :
    reindex_all_books demoRS (fun _ => some [1]) (.error ()) [] =
      .error .reindexFailed ∧
    (∃ rep s1, reindex_all_books demoRS (fun _ => some [1])
      (.ok [demoBook1, ⟨2, "Emma", "Austen", "Classic", 1815, ""⟩]) [] =
      .ok (rep, s1)) ∧
    (∀ (pre post : List Book) (bad : Book) (s : Store) (n : Nat),
      indexOk demoRS (fun _ => some [1]) bad.id = false →
      reindexLoop demoRS (fun _ => some [1]) (pre ++ bad :: post) s n =
        reindexLoop demoRS (fun _ => some [1]) (pre ++ post) s n) :=
  reindex_partial_failure_tolerant demoRS (fun _ => some [1])
    [demoBook1, ⟨2, "Emma", "Austen", "Classic", 1815, ""⟩] []

/-- A book of the three-book catalog used to refute C1. -/
def cBook (i : Nat) (t : String) : Book := ⟨i, t, "A", "G", 2000, ""⟩

/-- The three-book catalog used to refute C1. -/
def cBooks : List Book := [cBook 1 "T1", cBook 2 "T2", cBook 3 "T3"]

/-- A record store over `cBooks`, with no reviews. -/
def cRS : RecordStore :=
  { getBook := fun bid => cBooks.find? (fun b => b.id == bid),
    getReviews := fun _ => [] }

/-- An embedder that signals unavailability exactly on one source text and
succeeds on every other. -/
def embedFailText (bad : String) : String → Option (List ℚ) :=
  fun s => if s = bad then none else some [1]

/-- The report part of a bulk-reindex result. -/
def reportOf : Except ReindexErr (ReindexReport × Store) →
    Option ReindexReport
  | .ok p => some p.1
  | .error _ => none

/-- The final-store part of a bulk-reindex result. -/
def storeOf : Except ReindexErr (ReindexReport × Store) → Option Store
  | .ok p => some p.2
  | .error _ => none

/-- C1 counterexample: the report of `reindex_all_books` carries no
`failed_ids` component. Over the same three-book catalog, a run where only
book 2 fails and a run where only book 3 fails return identical reports
(message, `total_books`, `indexed_count` and `total_in_store` all agree),
although the two runs genuinely differ (their final stores differ); no
function of the report can name the failing book, so the report cannot
contain `failed_ids == [that one id]`. -/
theorem reindex_report_has_no_failed_ids :
    reportOf (reindex_all_books cRS
        (embedFailText (composeText (cBook 2 "T2") [])) (.ok cBooks) []) =
      reportOf (reindex_all_books cRS
        (embedFailText (composeText (cBook 3 "T3") [])) (.ok cBooks) []) ∧
    storeOf (reindex_all_books cRS
        (embedFailText (composeText (cBook 2 "T2") [])) (.ok cBooks) []) ≠
      storeOf (reindex_all_books cRS
        (embedFailText (composeText (cBook 3 "T3") [])) (.ok cBooks) []) := by
  constructor
  · rfl
  · decide

/-- C1 amended: over a catalog where exactly one listed book's indexing
fails, `reindex_all_books` returns a report whose fields are `message`,
`total_books`, `indexed_count` and `total_in_store`, with
`total_books = N` and `indexed_count = N - 1`; the failing book's id is
only logged, not returned. -/
theorem reindex_one_failure_counts (rs : RecordStore)
    (embed : String → Option (List ℚ)) (books : List Book) (store : Store)
    (h1 : books.countP (fun b => !(indexOk rs embed b.id)) = 1) :
    ∃ rep s1, reindex_all_books rs embed (.ok books) store =
        .ok (rep, s1) ∧
      rep.total_books = books.length ∧
      rep.indexed_count = books.length - 1 := by
  refine ⟨_, _, rfl, rfl, ?_⟩
  show (reindexLoop rs embed books store 0).2 = books.length - 1
  rw [reindexLoop_count]
  have h2 := books.length_eq_countP_add_countP
    (fun b => indexOk rs embed b.id)
  have h3 : (fun b : Book => !(indexOk rs embed b.id)) =
      (fun b : Book => decide ¬(indexOk rs embed b.id = true)) := by
    funext b
    cases indexOk rs embed b.id <;> rfl
  rw [h3] at h1
  omega

/-- Witness for C1 (amended) at the concrete three-book catalog where only
book 2's embedding fails. -/
theorem reindex_one_failure_counts_witness :
    ∃ rep s1, reindex_all_books cRS
        (embedFailText (composeText (cBook 2 "T2") [])) (.ok cBooks) [] =
        .ok (rep, s1) ∧
      rep.total_books = cBooks.length ∧
      rep.indexed_count = cBooks.length - 1 :=
  reindex_one_failure_counts cRS
    (embedFailText (composeText (cBook 2 "T2") [])) cBooks [] (by decide)

/-! ### Store invariant (claim C6) -/

/-- A mutation of the embedding store: the orchestrator's upsert or the
explicit delete (the only writers, per the spec). -/
inductive StoreOp
  | put (e : IndexEntry)
  | del (bid : Nat)

/-- Apply one store operation. -/
def applyOp (s : Store) : StoreOp → Store
  | .put e => putEntry s e
  | .del bid => deleteEntry s bid

/-- Run a sequence of store operations from the empty store (the store is
empty at process start). -/
def runOps (ops : List StoreOp) : Store := ops.foldl applyOp []

/-- Keys of a cons store. -/
theorem storeKeys_cons (x : IndexEntry) (xs : Store) :
    storeKeys (x :: xs) = x.bookId :: storeKeys xs := rfl

/-- Upserting a present key overwrites in place: the keys are unchanged. -/
theorem storeKeys_putEntry_mem (s : Store) (e : IndexEntry) :
    e.bookId ∈ storeKeys s → storeKeys (putEntry s e) = storeKeys s := by
  induction s with
  | nil =>
    intro hm
    simp [storeKeys] at hm
  | cons x xs ih =>
    intro hm
    by_cases h : x.bookId = e.bookId
    · rw [putEntry, if_pos h, storeKeys_cons, storeKeys_cons, h]
    · have hm2 : e.bookId ∈ storeKeys xs := by
        rw [storeKeys_cons] at hm
        rcases List.mem_cons.mp hm with hx | hx
        · exact absurd hx.symm h
        · exact hx
      rw [putEntry, if_neg h, storeKeys_cons, storeKeys_cons, ih hm2]

/-- Upserting an absent key appends it. -/
theorem storeKeys_putEntry_not_mem (s : Store) (e : IndexEntry) :
    e.bookId ∉ storeKeys s →
      storeKeys (putEntry s e) = storeKeys s ++ [e.bookId] := by
  induction s with
  | nil => intro _; rfl
  | cons x xs ih =>
    intro hm
    rw [storeKeys_cons] at hm
    have h : ¬x.bookId = e.bookId := fun hx =>
      hm (List.mem_cons.mpr (Or.inl hx.symm))
    have hm2 : e.bookId ∉ storeKeys xs := fun hx =>
      hm (List.mem_cons.mpr (Or.inr hx))
    rw [putEntry, if_neg h, storeKeys_cons, storeKeys_cons, ih hm2]
    rfl

/-- The upserted key is always present afterwards. -/
theorem mem_storeKeys_putEntry_self (s : Store) (e : IndexEntry) :
    e.bookId ∈ storeKeys (putEntry s e) := by
  by_cases hm : e.bookId ∈ storeKeys s
  · rw [storeKeys_putEntry_mem s e hm]
    exact hm
  · rw [storeKeys_putEntry_not_mem s e hm]
    simp

/-- An upsert never removes a key. -/
theorem mem_storeKeys_putEntry_of_mem (s : Store) (e : IndexEntry)
    (k : Nat) (h : k ∈ storeKeys s) : k ∈ storeKeys (putEntry s e) := by
  by_cases hm : e.bookId ∈ storeKeys s
  · rw [storeKeys_putEntry_mem s e hm]
    exact h
  · rw [storeKeys_putEntry_not_mem s e hm]
    exact List.mem_append.mpr (Or.inl h)

/-- An upsert keeps the keys duplicate-free. -/
theorem nodup_storeKeys_putEntry (s : Store) (e : IndexEntry)
    (h : (storeKeys s).Nodup) : (storeKeys (putEntry s e)).Nodup := by
  by_cases hm : e.bookId ∈ storeKeys s
  · rw [storeKeys_putEntry_mem s e hm]
    exact h
  · rw [storeKeys_putEntry_not_mem s e hm]
    simp [List.nodup_append, h, hm]

/-- Deletion keeps the keys duplicate-free. -/
theorem nodup_storeKeys_deleteEntry (s : Store) (bid : Nat)
    (h : (storeKeys s).Nodup) :
    (storeKeys (deleteEntry s bid)).Nodup := by
  have hsub : List.Sublist (storeKeys (deleteEntry s bid)) (storeKeys s) :=
    List.Sublist.map _ (List.filter_sublist s)
  exact h.sublist hsub

/-- Upserting an already-present key never changes the store's length. -/
theorem putEntry_length_mem (s : Store) (e : IndexEntry)
    (h : e.bookId ∈ storeKeys s) : (putEntry s e).length = s.length := by
  induction s with
  | nil => simp [storeKeys] at h
  | cons x xs ih =>
    by_cases hx : x.bookId = e.bookId
    · simp [putEntry, hx]
    · have h2 : e.bookId ∈ storeKeys xs := by
        simp [storeKeys] at h ⊢
        rcases h with h | h
        · exact absurd h.symm hx
        · exact h
      simp [putEntry, hx, ih h2]

/-- C6: after any sequence of store operations from the empty store there
is at most one entry per `book_id` (the key list is duplicate-free), and an
upsert for a `book_id` already in the store overwrites in place:
`store_size` does not change — in particular, re-indexing book 1 after
adding a review leaves `store_size` at 1. -/
theorem store_at_most_one_entry_per_id (ops : List StoreOp) :
    (storeKeys (runOps ops)).Nodup ∧
    (∀ e : IndexEntry, e.bookId ∈ storeKeys (runOps ops) →
      store_size (putEntry (runOps ops) e) = store_size (runOps ops)) := by
  constructor
  · have hinv : ∀ (l : List StoreOp) (s : Store), (storeKeys s).Nodup →
        (storeKeys (l.foldl applyOp s)).Nodup := by
      intro l
      induction l with
      | nil => intro s h; exact h
      | cons op t ih =>
        intro s h
        apply ih
        cases op with
        | put e => exact nodup_storeKeys_putEntry s e h
        | del bid => exact nodup_storeKeys_deleteEntry s bid h
    exact hinv ops [] (by simp [storeKeys])
  · intro e he
    exact putEntry_length_mem _ e he

/-- The entry written on first indexing book 1 (no reviews yet). -/
def dune1Entry : IndexEntry :=
  mkIndexEntry 1 demoBook1 (composeText demoBook1 []) [1]

/-- The entry written on re-indexing book 1 after a review was added. -/
def dune1ReviewedEntry : IndexEntry :=
  mkIndexEntry 1 demoBook1
    (composeText demoBook1 [⟨1, 1, 1, "A masterpiece", 5⟩]) [2]

/-- Witness for C6: the spec scenario — index book 1, then re-index it
after adding a review; the keys stay duplicate-free and the second upsert
leaves the size unchanged. -/
theorem store_at_most_one_entry_per_id_witness :
    (storeKeys (runOps [StoreOp.put dune1Entry])).Nodup ∧
    store_size (putEntry (runOps [StoreOp.put dune1Entry])
        dune1ReviewedEntry) =
      store_size (runOps [StoreOp.put dune1Entry]) :=
  ⟨(store_at_most_one_entry_per_id [StoreOp.put dune1Entry]).1,
   (store_at_most_one_entry_per_id [StoreOp.put dune1Entry]).2
     dune1ReviewedEntry (by decide)⟩

/-! ### Scheduling model: background vs synchronous indexing (claim C9) -/

/-- Application state for the cooperative-scheduling model: the relational
database of books, the in-process embedding store, and the ids whose
background indexing task (created with `asyncio.create_task`) has not yet
been run by the event loop. -/
structure AppState where
  db : List Book
  store : Store
  pending : List Nat

/-- `add_book` from `src/app/main.py`: commit the book to the database,
then fire `asyncio.create_task(rag_pipeline.index_book(...))` — the task
is only scheduled (appended to `pending`), not awaited: the response
returns without any embedding-store write. -/
def add_book (st : AppState) (b : Book) : AppState :=
  { db := st.db ++ [b], store := st.store, pending := st.pending ++ [b.id] }

/-- The event loop later running one pending background task: synchronous
`index_book` on the queued id; a failure simply aborts that one task. -/
def runPendingTask (rs : RecordStore) (embed : String → Option (List ℚ))
    (st : AppState) : AppState :=
  match st.pending with
  | [] => st
  | bid :: rest =>
    { db := st.db, pending := rest,
      store :=
        match index_book rs embed st.store bid with
        | .ok s1 => s1
        | .error _ => st.store }

/-- The synchronous bulk reindex over the state: `reindex_all_books` is
awaited book by book, so every store write completes before the report is
returned. -/
def reindex_all_sync (rs : RecordStore) (embed : String → Option (List ℚ))
    (st : AppState) : ReindexReport × AppState :=
  let p := reindexLoop rs embed st.db st.store 0
  ({ message := "Reindexed " ++ toString p.2 ++ " books successfully",
     total_books := st.db.length,
     indexed_count := p.2,
     total_in_store := store_size p.1 },
   { db := st.db, store := p.1, pending := st.pending })

/-- The entry produced by a successful indexing of `bid` is keyed by
`bid`. -/
theorem indexOutcome_bookId (rs : RecordStore)
    (embed : String → Option (List ℚ)) (bid : Nat) (e : IndexEntry)
    (h : indexOutcome rs embed bid = some e) : e.bookId = bid := by
  unfold indexOutcome at h
  split at h
  · exact absurd h (by simp)
  · split at h
    · exact absurd h (by simp)
    · rw [Option.some.injEq] at h
      rw [← h]
      rfl

/-- The reindex loop never loses store keys, and every listed book whose
indexing succeeds has its id in the final store's keys. -/
theorem reindexLoop_store_keys (rs : RecordStore)
    (embed : String → Option (List ℚ)) (books : List Book) :
    ∀ store cnt,
      (∀ k, k ∈ storeKeys store →
        k ∈ storeKeys (reindexLoop rs embed books store cnt).1) ∧
      (∀ b ∈ books, indexOk rs embed b.id = true →
        b.id ∈ storeKeys (reindexLoop rs embed books store cnt).1) := by
  induction books with
  | nil =>
    intro store cnt
    constructor
    · intro k hk
      simpa [reindexLoop] using hk
    · simp
  | cons b bs ih =>
    intro store cnt
    cases hok : indexOk rs embed b.id with
    | true =>
      obtain ⟨e, hoc, hbook⟩ := index_book_ok_of_ok rs embed store b.id hok
      have hbid : e.bookId = b.id := indexOutcome_bookId rs embed b.id e hoc
      rw [reindexLoop, hbook]
      constructor
      · intro k hk
        exact (ih (putEntry store e) (cnt + 1)).1 k
          (mem_storeKeys_putEntry_of_mem store e k hk)
      · intro bk hbk _hbkok
        rcases List.mem_cons.mp hbk with rfl | hmem
        · exact (ih (putEntry store e) (cnt + 1)).1 bk.id
            (hbid ▸ mem_storeKeys_putEntry_self store e)
        · exact (ih (putEntry store e) (cnt + 1)).2 bk hmem _hbkok
    | false =>
      obtain ⟨err, hbook⟩ := index_book_error_of_not_ok rs embed store b.id
        hok
      rw [reindexLoop, hbook]
      constructor
      · exact (ih store cnt).1
      · intro bk hbk hbkok
        rcases List.mem_cons.mp hbk with rfl | hmem
        · rw [hok] at hbkok
          cases hbkok
        · exact (ih store cnt).2 bk hmem hbkok

/-- C9: indexing triggered by book creation is detached background work —
`add_book` returns with the embedding store untouched (a ranked search
issued immediately afterwards reads exactly the pre-existing store, so it
can miss the new book) and the indexing task merely queued; by contrast the
synchronous paths give read-after-write: when explicit bulk reindex
returns, every catalog book whose indexing succeeds is already a key of the
returned store, and a successful explicit single-book `index_book` returns
the store with the book's key written. -/
theorem background_vs_sync_indexing (rs : RecordStore)
    (embed : String → Option (List ℚ)) (sim : List ℚ → List ℚ → ℚ)
    (st : AppState) (b : Book) (query : String) (limit : Nat) :
    (add_book st b).store = st.store ∧
    (add_book st b).pending = st.pending ++ [b.id] ∧
    search_similar_books embed sim (add_book st b).store query limit =
      search_similar_books embed sim st.store query limit ∧
    (∀ bk ∈ st.db, indexOk rs embed bk.id = true →
      bk.id ∈ storeKeys (reindex_all_sync rs embed st).2.store) ∧
    (∀ e, indexOutcome rs embed b.id = some e →
      index_book rs embed st.store b.id = .ok (putEntry st.store e) ∧
      b.id ∈ storeKeys (putEntry st.store e)) := by
  refine ⟨rfl, rfl, rfl, ?_, ?_⟩
  · intro bk hbk hok
    exact (reindexLoop_store_keys rs embed st.db st.store 0).2 bk hbk hok
  · intro e he
    rcases index_book_cases rs embed st.store b.id with
      ⟨e2, he2, hok⟩ | ⟨hn, _, _⟩
    · rw [he] at he2
      rw [Option.some.injEq] at he2
      subst he2
      exact ⟨hok,
        indexOutcome_bookId rs embed b.id e he ▸
          mem_storeKeys_putEntry_self st.store e⟩
    · rw [he] at hn
      cases hn

/-- A concrete two-book state for the C9 witness: book 1 is indexed, the
newly created book 2 is only pending. -/
def demoState : AppState :=
  { db := [demoBook1], store := [dune1Entry], pending := [] }

/-- The book created in the C9 witness. -/
def demoNewBook : Book := ⟨2, "Emma", "Austen", "Classic", 1815, ""⟩

/-- Witness for C9 at a concrete state, book, query and limit. -/
theorem background_vs_sync_indexing_witness :
    (add_book demoState demoNewBook).store = demoState.store ∧
    (add_book demoState demoNewBook).pending =
      demoState.pending ++ [demoNewBook.id] ∧
    search_similar_books (fun _ => some [1]) dotSim
        (add_book demoState demoNewBook).store "Emma" 5 =
      search_similar_books (fun _ => some [1]) dotSim demoState.store
        "Emma" 5 ∧
    (∀ bk ∈ demoState.db,
      indexOk demoRS (fun _ => some [1]) bk.id = true →
      bk.id ∈ storeKeys
        (reindex_all_sync demoRS (fun _ => some [1]) demoState).2.store) ∧
    (∀ e, indexOutcome demoRS (fun _ => some [1]) demoNewBook.id = some e →
      index_book demoRS (fun _ => some [1]) demoState.store
          demoNewBook.id = .ok (putEntry demoState.store e) ∧
      demoNewBook.id ∈ storeKeys (putEntry demoState.store e)) :=
  background_vs_sync_indexing demoRS (fun _ => some [1]) dotSim demoState
    demoNewBook "Emma" 5

/-! ### Ingestion status route (claim C10) -/

/-- An ingestion job row, from `src/app/models.py` (`class IngestionJob`). -/
structure IngestionJob where
  id : Nat
  documentId : Nat
  status : String
deriving Repr, DecidableEq

/-- A Python runtime error escaping the route handler. -/
inductive PyErr
  | attributeErrorNoneType
deriving Repr, DecidableEq

/-- `ingestion_status` from `src/app/routes/ingestion.py`: select the job
by id (`scalar_one_or_none`, an Option), then build the response from
`job.status`. There is no None check and no not-found branch: when no row
matches, the attribute access on None raises AttributeError, modelled as
the error case. -/
def ingestion_status (jobs : List IngestionJob) (jobId : Nat) :
    Except PyErr String :=
  match jobs.find? (fun j => j.id == jobId) with
  | none => .error .attributeErrorNoneType
  | some j => .ok j.status

/-- C10: for a `job_id` with no matching row, `ingestion_status`
dereferences None and raises an unhandled AttributeError instead of
returning a not-found response; only for an existing job does it return
that job's status. -/
theorem ingestion_status_none_deref (jobs : List IngestionJob)
    (jobId : Nat) :
    (jobs.find? (fun j => j.id == jobId) = none →
      ingestion_status jobs jobId = .error .attributeErrorNoneType) ∧
    (∀ j, jobs.find? (fun j2 => j2.id == jobId) = some j →
      ingestion_status jobs jobId = .ok j.status) := by
  constructor
  · intro h
    simp [ingestion_status, h]
  · intro j h
    simp [ingestion_status, h]

/-- Witness for C10: one job with id 1; querying id 2 dereferences None,
querying id 1 returns the status. -/
theorem ingestion_status_none_deref_witness :
    ingestion_status [⟨1, 1, "running"⟩] 2 =
      .error .attributeErrorNoneType ∧
    ingestion_status [⟨1, 1, "running"⟩] 1 = .ok "running" :=
  ⟨(ingestion_status_none_deref [⟨1, 1, "running"⟩] 2).1 rfl,
   (ingestion_status_none_deref [⟨1, 1, "running"⟩] 1).2
     ⟨1, 1, "running"⟩ rfl⟩

end BookMgmt
